import Mathlib

/-!
Shallow embedding of the buffer-cache layer of the bustubx storage engine:
the `Page` abstraction (`src/storage/page/page.rs`), the LRU-K replacer
(`src/buffer/lru_k_replacer.rs`), the disk manager
(`src/storage/disk/disk_manager.rs`) and the buffer pool manager
(`src/buffer/buffer_pool_manager.rs`).

Modelling conventions:
- Rust `usize`/`u32` counters are modelled as `Nat` (no claim under scrutiny
  exercises machine-integer overflow); the page pin count, an `i32` in the
  source, is modelled as `Int`.
- A Rust `panic!` / `unwrap` failure is modelled by returning `none` from the
  embedded operation (`Option`-valued results thread the abort).
- The `HashMap`s (`node_store`, `page_table`) are modelled as association
  lists; the list order stands for the map's (unspecified) iteration order.
  Every settled property is insensitive to that order.
- The disk scheduler's requests are awaited synchronously by every caller in
  the buffer pool manager (`schedule` followed by `blocking_recv`), so a
  scheduled request is modelled as the corresponding synchronous disk-manager
  call; completed write requests are additionally kept in a log.
-/

namespace BusTub

/-- `BUSTUB_PAGE_SIZE` from `src/common/config.rs`. -/
def BUSTUB_PAGE_SIZE : Nat := 4096

/-- `LRUK_REPLACER_K` from `src/common/config.rs`. -/
def LRUK_REPLACER_K : Nat := 10

/-- `usize::MAX` on the 64-bit targets the source is built for. -/
def USIZE_MAX : Nat := 2 ^ 64 - 1

/-- The `Distance` enum of `lru_k_replacer.rs`. The derived Rust `Ord`
orders by variant first (`Num < Inf`), then by payload. -/
inductive Distance where
  | Num : Nat → Distance
  | Inf : Nat → Distance
deriving DecidableEq, Repr

/-- Strict comparison of the derived `Ord` on `Distance`:
`Num a < Num b ↔ a < b`, `Num _ < Inf _` always, `Inf a < Inf b ↔ a < b`. -/
def Distance.blt : Distance → Distance → Bool
  | .Num a, .Num b => a < b
  | .Num _, .Inf _ => true
  | .Inf _, .Num _ => false
  | .Inf a, .Inf b => a < b

/-- `LRUKNode` of `lru_k_replacer.rs`: the history list keeps the least
recent timestamp in front (`push_back` appends, `pop_front` drops the head). -/
structure LRUKNode where
  history : List Nat
  k : Nat
  frame_id : Nat
  is_evictable : Bool
deriving DecidableEq, Repr

/-- `LRUKNode::new`: fresh node with empty history, `is_evictable: true`. -/
def LRUKNode.mk_new (frame_id k : Nat) : LRUKNode :=
  { history := [], k := k, frame_id := frame_id, is_evictable := true }

/-- `LRUKNode::backward_k_distance`. The source unwraps `history.front()` /
`history.back()`; every node the replacer ever stores has a non-empty history
(`record_access` creates nodes with one timestamp), so the `headD 0` /
`getLastD 0` defaults are never consulted on states the source can build. -/
def LRUKNode.backward_k_distance (n : LRUKNode) : Distance :=
  if n.history.length < n.k then
    Distance.Inf (USIZE_MAX - n.history.headD 0)
  else
    Distance.Num (n.history.getLastD 0 - n.history.headD 0)

/-- Association-list lookup, standing for `HashMap::get`. -/
def lookupEntry {β : Type} : List (Nat × β) → Nat → Option β
  | [], _ => none
  | (key, v) :: rest, k => if key = k then some v else lookupEntry rest k

/-- Association-list removal, standing for `HashMap::remove`. -/
def removeEntry {β : Type} (l : List (Nat × β)) (k : Nat) : List (Nat × β) :=
  l.filter (fun p => p.1 ≠ k)

/-- In-place update of the entry with the given key, standing for mutation
through `HashMap::get_mut`. -/
def updateEntry {β : Type} (l : List (Nat × β)) (k : Nat) (f : β → β) :
    List (Nat × β) :=
  l.map (fun p => if p.1 = k then (p.1, f p.2) else p)

/-- `LRUKReplacer` of `lru_k_replacer.rs`. `node_store` is the `HashMap` in
its iteration order. -/
structure LRUKReplacer where
  node_store : List (Nat × LRUKNode)
  current_timestamp : Nat
  current_size : Nat
  replacer_size : Nat
  k : Nat
deriving DecidableEq, Repr

/-- `LRUKReplacer::new(num_frames, k)`. -/
def LRUKReplacer.mk_new (num_frames k : Nat) : LRUKReplacer :=
  { node_store := [], current_timestamp := 0, current_size := 0,
    replacer_size := num_frames, k := k }

/-- The scan loop of `LRUKReplacer::evict`: walks the store in iteration
order, keeping the frame whose backward k-distance strictly exceeds the
current maximum; the maximum starts at `Distance::Num(0)`. -/
def evictLoop : List (Nat × LRUKNode) → Option Nat → Distance → Option Nat
  | [], best, _ => best
  | (fid, node) :: rest, best, maxd =>
    if node.is_evictable && maxd.blt node.backward_k_distance then
      evictLoop rest (some fid) node.backward_k_distance
    else
      evictLoop rest best maxd

/-- `LRUKReplacer::evict`: returns the chosen frame (if any) and the updated
replacer (victim's history removed, size decremented). -/
def LRUKReplacer.evict (r : LRUKReplacer) : Option Nat × LRUKReplacer :=
  match evictLoop r.node_store none (Distance.Num 0) with
  | none => (none, r)
  | some fid =>
    (some fid,
     { r with node_store := removeEntry r.node_store fid,
              current_size := r.current_size - 1 })

/-- `LRUKReplacer::record_access`. `none` models the
`panic!("Replacer is full")` taken when the frame is unseen and
`current_size >= replacer_size`. -/
def LRUKReplacer.record_access (r : LRUKReplacer) (frame_id : Nat) :
    Option LRUKReplacer :=
  let ts := r.current_timestamp
  let k := r.k
  let r := { r with current_timestamp := ts + 1 }
  match lookupEntry r.node_store frame_id with
  | some _ =>
    some { r with
      node_store := updateEntry r.node_store frame_id (fun node =>
        let h := node.history ++ [ts]
        { node with history := if h.length > k then h.tail else h }) }
  | none =>
    if r.current_size ≥ r.replacer_size then
      none
    else
      some { r with
        node_store := r.node_store ++
          [(frame_id, { LRUKNode.mk_new frame_id k with history := [ts] })],
        current_size := r.current_size + 1 }

/-- `LRUKReplacer::set_evictable`. `none` models the
`panic!("Invalid frame id")` on an untracked frame. -/
def LRUKReplacer.set_evictable (r : LRUKReplacer) (frame_id : Nat)
    (flag : Bool) : Option LRUKReplacer :=
  match lookupEntry r.node_store frame_id with
  | none => none
  | some node =>
    if node.is_evictable = flag then
      some r
    else
      some { r with
        node_store := updateEntry r.node_store frame_id
          (fun n => { n with is_evictable := flag }),
        current_size :=
          if flag then r.current_size + 1 else r.current_size - 1 }

/-- `LRUKReplacer::remove`. `none` models the
`panic!("Frame is not evictable")`; an untracked frame is a silent no-op. -/
def LRUKReplacer.remove (r : LRUKReplacer) (frame_id : Nat) :
    Option LRUKReplacer :=
  match lookupEntry r.node_store frame_id with
  | none => some r
  | some node =>
    if node.is_evictable then
      some { r with node_store := removeEntry r.node_store frame_id,
                    current_size := r.current_size - 1 }
    else
      none

/-- `LRUKReplacer::size`. -/
def LRUKReplacer.size (r : LRUKReplacer) : Nat :=
  r.current_size

/-- Number of store entries currently marked evictable. -/
def countEvictable : List (Nat × LRUKNode) → Nat
  | [] => 0
  | p :: rest => (if p.2.is_evictable then 1 else 0) + countEvictable rest

/-- Replacer states reachable from `LRUKReplacer::new` by sequences of
(successful) `record_access` and `set_evictable` calls. -/
inductive ReplacerReach (num_frames k : Nat) : LRUKReplacer → Prop where
  | init : ReplacerReach num_frames k (LRUKReplacer.mk_new num_frames k)
  | record (r r' : LRUKReplacer) (fid : Nat) :
      ReplacerReach num_frames k r → r.record_access fid = some r' →
      ReplacerReach num_frames k r'
  | setEv (r r' : LRUKReplacer) (fid : Nat) (flag : Bool) :
      ReplacerReach num_frames k r → r.set_evictable fid flag = some r' →
      ReplacerReach num_frames k r'

/-- `Page` of `src/storage/page/page.rs` (the `PageInner` fields). In the
source a `Page` is an `Arc<RwLock<PageInner>>`: every clone handed out by the
buffer pool manager aliases the pool's page, so mutation through a returned
handle is mutation of the pool state and vice versa; the model therefore
keeps one value per frame inside the pool state. -/
structure Page where
  data : List Nat
  page_id : Option Nat
  pin_count : Int
  is_dirty : Bool
deriving DecidableEq, Repr

/-- `Page::new`: zeroed data, no id, pin count 0, clean. -/
def Page.mk_new : Page :=
  { data := List.replicate BUSTUB_PAGE_SIZE 0, page_id := none,
    pin_count := 0, is_dirty := false }

/-- `Page::reset`. -/
def Page.reset (_p : Page) : Page :=
  { data := List.replicate BUSTUB_PAGE_SIZE 0, page_id := none,
    pin_count := 0, is_dirty := false }

/-- `Page::set_page_id`. -/
def Page.set_page_id (p : Page) (page_id : Nat) : Page :=
  { p with page_id := some page_id }

/-- `Page::pin`. -/
def Page.pin (p : Page) : Page :=
  { p with pin_count := p.pin_count + 1 }

/-- `Page::unpin`. -/
def Page.unpin (p : Page) : Page :=
  { p with pin_count := p.pin_count - 1 }

/-- `Page::set_dirty`: a plain assignment of the flag. -/
def Page.set_dirty (p : Page) (is_dirty : Bool) : Page :=
  { p with is_dirty := is_dirty }

/-- A caller mutating the page bytes through `Page::get_mut_data` (as the
buffer-pool tests do); the `Arc` sharing makes this mutate the pool's frame. -/
def Page.write_data (p : Page) (data : List Nat) : Page :=
  { p with data := data }

/-- `DiskManager::write_page` on a db file modelled as its byte list: seek to
`page_id * BUSTUB_PAGE_SIZE` (seeking past end-of-file makes the gap read as
zeros) and overwrite one page's worth of bytes. -/
def DiskManager.write_page (file : List Nat) (page_id : Nat)
    (data : List Nat) : List Nat :=
  let offset := page_id * BUSTUB_PAGE_SIZE
  let padded := file ++ List.replicate (offset - file.length) 0
  padded.take offset ++ data ++ padded.drop (offset + BUSTUB_PAGE_SIZE)

/-- `DiskManager::read_page`: `none` models the
`panic!("I/O error reading past end of file")` taken when the start offset
strictly exceeds the file length; otherwise the page's worth of bytes is
returned with everything past end-of-file zero-filled. -/
def DiskManager.read_page (file : List Nat) (page_id : Nat) :
    Option (List Nat) :=
  let offset := page_id * BUSTUB_PAGE_SIZE
  if offset > file.length then
    none
  else
    some ((List.range BUSTUB_PAGE_SIZE).map (fun i => file.getD (offset + i) 0))

/-- `BufferPoolManager` of `src/buffer/buffer_pool_manager.rs`. `free_list`
models the `Vec` as a stack whose head is the next `pop`; `file` is the disk
manager's db file reached through the scheduler's worker; `writes` logs the
completed Write requests `(page id written, bytes written)` in order. -/
structure BufferPoolManager where
  pool_size : Nat
  next_page_id : Nat
  pages : List Page
  page_table : List (Nat × Nat)
  replacer : LRUKReplacer
  free_list : List Nat
  file : List Nat
  writes : List (Nat × List Nat)
deriving DecidableEq, Repr

/-- `BufferPoolManager::new(pool_size, disk_manager, replacer_k)`. The source
builds the free list by pushing `pool_size-1, …, 1, 0`, so frame 0 is popped
first: as a head-pop stack that is `[0, 1, …, pool_size-1]`. The replacer is
constructed as `LRUKReplacer::new(replacer_k, LRUK_REPLACER_K)`. -/
def BufferPoolManager.mk_new (pool_size replacer_k : Nat) :
    BufferPoolManager :=
  { pool_size := pool_size, next_page_id := 0,
    pages := List.replicate pool_size Page.mk_new,
    page_table := [],
    replacer := LRUKReplacer.mk_new replacer_k LRUK_REPLACER_K,
    free_list := List.range pool_size,
    file := [], writes := [] }

/-- Scheduling a `DiskRequest::Write{page}` and waiting on its callback: the
worker runs `disk_manager.write_page(page.get_page_id().unwrap(), data)`;
`none` models the worker's `unwrap` panic on a page with no id. -/
def scheduleWrite (m : BufferPoolManager) (page : Page) :
    Option BufferPoolManager :=
  match page.page_id with
  | none => none
  | some pid =>
    some { m with file := DiskManager.write_page m.file pid page.data,
                  writes := m.writes ++ [(pid, page.data)] }

/-- Scheduling a `DiskRequest::Read{page}` for the page in `frame_id` and
waiting on its callback: the worker runs
`disk_manager.read_page(page.get_page_id().unwrap(), page.get_mut_data())`,
populating the (shared) frame; `none` models either `unwrap` panic or the
disk manager's read-past-end-of-file panic. -/
def scheduleRead (m : BufferPoolManager) (frame_id : Nat) :
    Option BufferPoolManager :=
  let page := m.pages.getD frame_id Page.mk_new
  match page.page_id with
  | none => none
  | some pid =>
    match DiskManager.read_page m.file pid with
    | none => none
    | some data =>
      some { m with pages := m.pages.set frame_id { page with data := data } }

/-- The frame-acquisition block shared verbatim by `new_page` and the miss
path of `fetch_page`: pop the free list, else evict, write back a dirty
victim and drop its page-table entry. Result: `none` = panic, `some none` =
no frame available (the caller returns `None`), `some (some (fid, m'))` =
frame obtained. -/
def BufferPoolManager.acquireFrame (m : BufferPoolManager) :
    Option (Option (Nat × BufferPoolManager)) :=
  match m.free_list with
  | fid :: rest => some (some (fid, { m with free_list := rest }))
  | [] =>
    match m.replacer.evict with
    | (none, _) => some none
    | (some fid, r') =>
      let m := { m with replacer := r' }
      let page := m.pages.getD fid Page.mk_new
      let wb := if page.is_dirty then scheduleWrite m page else some m
      match wb with
      | none => none
      | some m =>
        match page.page_id with
        | none => none
        | some old_pid =>
          some (some (fid, { m with
            page_table := removeEntry m.page_table old_pid }))

/-- `BufferPoolManager::new_page`. `none` = panic; `some (none, m)` = the
source returns `None`; `some (some page, m')` = success, returning the
(shared) page handle. -/
def BufferPoolManager.new_page (m : BufferPoolManager) :
    Option (Option Page × BufferPoolManager) :=
  match m.acquireFrame with
  | none => none
  | some none => some (none, m)
  | some (some (fid, m)) =>
    let page_id := m.next_page_id
    let m := { m with next_page_id := page_id + 1 }
    let page := ((m.pages.getD fid Page.mk_new).set_page_id page_id).pin
    let m := { m with pages := m.pages.set fid page }
    let m := { m with page_table := (page_id, fid) :: removeEntry m.page_table page_id }
    match m.replacer.record_access fid with
    | none => none
    | some r =>
      match r.set_evictable fid false with
      | none => none
      | some r' => some (some page, { m with replacer := r' })

/-- `BufferPoolManager::fetch_page`. On a hit: pin, record an access, return
the page (the resident path calls neither `set_evictable` nor a disk read).
On a miss: acquire a frame as in `new_page`, assign the requested id, pin,
schedule a Read and wait, insert into the page table, record an access, mark
non-evictable. -/
def BufferPoolManager.fetch_page (m : BufferPoolManager) (page_id : Nat) :
    Option (Option Page × BufferPoolManager) :=
  match lookupEntry m.page_table page_id with
  | some fid =>
    let page := (m.pages.getD fid Page.mk_new).pin
    let m := { m with pages := m.pages.set fid page }
    match m.replacer.record_access fid with
    | none => none
    | some r => some (some page, { m with replacer := r })
  | none =>
    match m.acquireFrame with
    | none => none
    | some none => some (none, m)
    | some (some (fid, m)) =>
      let page := ((m.pages.getD fid Page.mk_new).set_page_id page_id).pin
      let m := { m with pages := m.pages.set fid page }
      match scheduleRead m fid with
      | none => none
      | some m =>
        let m := { m with
          page_table := (page_id, fid) :: removeEntry m.page_table page_id }
        match m.replacer.record_access fid with
        | none => none
        | some r =>
          match r.set_evictable fid false with
          | none => none
          | some r' =>
            some (some (m.pages.getD fid Page.mk_new), { m with replacer := r' })

/-- `BufferPoolManager::unpin_page`. `none` models a panic inside
`set_evictable` (untracked frame). -/
def BufferPoolManager.unpin_page (m : BufferPoolManager) (page_id : Nat)
    (is_dirty : Bool) : Option (Bool × BufferPoolManager) :=
  match lookupEntry m.page_table page_id with
  | none => some (false, m)
  | some fid =>
    let page := m.pages.getD fid Page.mk_new
    if page.pin_count ≤ 0 then
      some (false, m)
    else
      let page := (page.set_dirty is_dirty).unpin
      let m := { m with pages := m.pages.set fid page }
      if page.pin_count = 0 then
        match m.replacer.set_evictable fid true with
        | none => none
        | some r => some (true, { m with replacer := r })
      else
        some (true, m)

/-- `BufferPoolManager::flush_page`: on a resident page it schedules a Write
(unconditionally) and waits; it never touches the dirty flag. -/
def BufferPoolManager.flush_page (m : BufferPoolManager) (page_id : Nat) :
    Option (Bool × BufferPoolManager) :=
  match lookupEntry m.page_table page_id with
  | none => some (false, m)
  | some fid =>
    match scheduleWrite m (m.pages.getD fid Page.mk_new) with
    | none => none
    | some m => some (true, m)

/-- `BufferPoolManager::delete_page`. -/
def BufferPoolManager.delete_page (m : BufferPoolManager) (page_id : Nat) :
    Option (Bool × BufferPoolManager) :=
  match lookupEntry m.page_table page_id with
  | none => some (true, m)
  | some fid =>
    let page := m.pages.getD fid Page.mk_new
    if page.pin_count > 0 then
      some (false, m)
    else
      let m := { m with page_table := removeEntry m.page_table page_id }
      match m.replacer.remove fid with
      | none => none
      | some r =>
        some (true, { m with replacer := r,
                             free_list := fid :: m.free_list,
                             pages := m.pages.set fid page.reset })

/-! Concrete scenario states, built exclusively through the embedded
operations (so every one of them is reachable through the public API of the
source). The pool has one frame; the replacer is constructed by
`BufferPoolManager::new(1, dm, 1)`. -/

/-- Fresh pool of size 1 with `replacer_k = 1`. -/
def poolS : BufferPoolManager := BufferPoolManager.mk_new 1 1

/-- After `new_page()`: page 0 resident in frame 0, pinned. -/
def poolM1 : BufferPoolManager := (poolS.new_page.getD (none, poolS)).2

/-- After `unpin_page(0, false)`: page 0 clean, pin count 0, evictable. -/
def poolM2 : BufferPoolManager :=
  ((poolM1.unpin_page 0 false).getD (false, poolS)).2

/-- After a resident `fetch_page(0)`: page 0 pinned again. -/
def poolM3 : BufferPoolManager :=
  ((poolM2.fetch_page 0).getD (none, poolS)).2

/-- After `unpin_page(0, true)` from `poolM1`: page 0 dirty, pin count 0,
evictable. -/
def poolD2 : BufferPoolManager :=
  ((poolM1.unpin_page 0 true).getD (false, poolS)).2

/-- After a resident `fetch_page(0)` from `poolD2`: page 0 dirty, pinned. -/
def poolC3 : BufferPoolManager :=
  ((poolD2.fetch_page 0).getD (none, poolS)).2

/-- One page of caller data with a leading nonzero byte. -/
def testData : List Nat := 7 :: List.replicate (BUSTUB_PAGE_SIZE - 1) 0

/-- `poolM1` after the caller writes `testData` through the fetched handle
(`Page::get_mut_data` on the shared `Arc` mutates frame 0 of the pool). -/
def poolW1 : BufferPoolManager :=
  { poolM1 with
    pages := poolM1.pages.set 0
      ((poolM1.pages.getD 0 Page.mk_new).write_data testData) }

/-- `poolW1` after `unpin_page(0, true)`: frame 0 holds a dirty page with
nonzero data, pin count 0, evictable. -/
def poolW2 : BufferPoolManager :=
  ((poolW1.unpin_page 0 true).getD (false, poolS)).2

/-- The replacer `LRUKReplacer::new(3, 2)` after `record_access(0)`. -/
def replacerR0 : LRUKReplacer :=
  { node_store := [(0, { history := [0], k := 2, frame_id := 0,
                         is_evictable := true })],
    current_timestamp := 1, current_size := 1, replacer_size := 3, k := 2 }

/-- Well-formedness of a replacer state: the cached size agrees with the
number of evictable entries, every tracked node has at least one recorded
access, and the store keys are distinct (as they are in a `HashMap`). -/
def StoreWF (r : LRUKReplacer) : Prop :=
  r.current_size = countEvictable r.node_store ∧
  (∀ p ∈ r.node_store, p.2.history ≠ []) ∧
  (r.node_store.map Prod.fst).Nodup

/-! Helper lemmas about the association-list operations. -/

theorem lookupEntry_cons {β : Type} (key : Nat) (v : β) (rest : List (Nat × β))
    (k : Nat) :
    lookupEntry ((key, v) :: rest) k =
      if key = k then some v else lookupEntry rest k := rfl

theorem updateEntry_cons {β : Type} (key : Nat) (v : β) (rest : List (Nat × β))
    (k : Nat) (f : β → β) :
    updateEntry ((key, v) :: rest) k f =
      (if key = k then (key, f v) else (key, v)) :: updateEntry rest k f := by
  by_cases h : key = k <;> simp [updateEntry, h]

theorem removeEntry_cons {β : Type} (key : Nat) (v : β) (rest : List (Nat × β))
    (k : Nat) :
    removeEntry ((key, v) :: rest) k =
      if key = k then removeEntry rest k
      else (key, v) :: removeEntry rest k := by
  by_cases h : key = k <;> simp [removeEntry, h]

theorem lookupEntry_eq_none_iff {β : Type} (l : List (Nat × β)) (k : Nat) :
    lookupEntry l k = none ↔ k ∉ l.map Prod.fst := by
  induction l with
  | nil => simp [lookupEntry]
  | cons p rest ih =>
    obtain ⟨key, v⟩ := p
    rw [lookupEntry_cons]
    by_cases h : key = k
    · subst h
      simp
    · simp [h, ih, Ne.symm h]

theorem mem_of_lookupEntry_eq_some {β : Type} {l : List (Nat × β)} {k : Nat}
    {v : β} (h : lookupEntry l k = some v) : (k, v) ∈ l := by
  induction l with
  | nil => simp [lookupEntry] at h
  | cons p rest ih =>
    obtain ⟨key, w⟩ := p
    rw [lookupEntry_cons] at h
    by_cases hk : key = k
    · subst hk
      have hv : w = v := by simpa using h
      subst hv
      exact List.mem_cons_self _ _
    · rw [if_neg hk] at h
      exact List.mem_cons_of_mem _ (ih h)

theorem lookupEntry_updateEntry_self {β : Type} (l : List (Nat × β)) (k : Nat)
    (f : β → β) :
    lookupEntry (updateEntry l k f) k = (lookupEntry l k).map f := by
  induction l with
  | nil => simp [lookupEntry, updateEntry]
  | cons p rest ih =>
    obtain ⟨key, v⟩ := p
    rw [updateEntry_cons, lookupEntry_cons]
    by_cases h : key = k
    · simp [h, lookupEntry_cons]
    · simp only [if_neg h]
      rw [lookupEntry_cons, if_neg h, ih]

theorem lookupEntry_removeEntry_self {β : Type} (l : List (Nat × β)) (k : Nat) :
    lookupEntry (removeEntry l k) k = none := by
  induction l with
  | nil => simp [lookupEntry, removeEntry]
  | cons p rest ih =>
    obtain ⟨key, v⟩ := p
    rw [removeEntry_cons]
    by_cases h : key = k
    · simpa [h] using ih
    · rw [if_neg h, lookupEntry_cons, if_neg h]
      exact ih

theorem updateEntry_keys {β : Type} (l : List (Nat × β)) (k : Nat) (f : β → β) :
    (updateEntry l k f).map Prod.fst = l.map Prod.fst := by
  induction l with
  | nil => simp [updateEntry]
  | cons p rest ih =>
    obtain ⟨key, v⟩ := p
    rw [updateEntry_cons]
    by_cases h : key = k <;> simp [h, ih]

theorem updateEntry_of_not_mem {β : Type} (l : List (Nat × β)) (k : Nat)
    (f : β → β) (h : k ∉ l.map Prod.fst) : updateEntry l k f = l := by
  induction l with
  | nil => rfl
  | cons p rest ih =>
    obtain ⟨key, v⟩ := p
    simp only [List.map_cons, List.mem_cons, not_or] at h
    rw [updateEntry_cons, if_neg (fun hk => h.1 hk.symm), ih h.2]

theorem countEvictable_cons (p : Nat × LRUKNode) (rest : List (Nat × LRUKNode)) :
    countEvictable (p :: rest) =
      (if p.2.is_evictable then 1 else 0) + countEvictable rest := rfl

theorem countEvictable_updateEntry_preserve (l : List (Nat × LRUKNode))
    (k : Nat) (f : LRUKNode → LRUKNode)
    (hf : ∀ n, (f n).is_evictable = n.is_evictable) :
    countEvictable (updateEntry l k f) = countEvictable l := by
  induction l with
  | nil => rfl
  | cons p rest ih =>
    obtain ⟨key, v⟩ := p
    rw [updateEntry_cons]
    by_cases h : key = k
    · rw [if_pos h, countEvictable_cons, countEvictable_cons, ih, hf]
    · rw [if_neg h, countEvictable_cons, countEvictable_cons, ih]

theorem countEvictable_append (l₁ l₂ : List (Nat × LRUKNode)) :
    countEvictable (l₁ ++ l₂) = countEvictable l₁ + countEvictable l₂ := by
  induction l₁ with
  | nil => simp [countEvictable]
  | cons p rest ih =>
    rw [List.cons_append, countEvictable_cons, countEvictable_cons, ih]
    omega

theorem countEvictable_pos_of_mem {l : List (Nat × LRUKNode)} {k : Nat}
    {node : LRUKNode} (hm : (k, node) ∈ l) (he : node.is_evictable = true) :
    1 ≤ countEvictable l := by
  induction l with
  | nil => simp at hm
  | cons p rest ih =>
    rw [countEvictable_cons]
    rcases List.mem_cons.mp hm with h | h
    · rw [← h]
      simp [he]
    · have := ih h
      omega

theorem forall_mem_updateEntry {β : Type} (P : β → Prop) (l : List (Nat × β))
    (k : Nat) (f : β → β) (hl : ∀ p ∈ l, P p.2) (hf : ∀ b, P b → P (f b)) :
    ∀ p ∈ updateEntry l k f, P p.2 := by
  induction l with
  | nil => simp [updateEntry]
  | cons q rest ih =>
    intro p hp
    obtain ⟨key, v⟩ := q
    rw [updateEntry_cons] at hp
    rcases List.mem_cons.mp hp with h | h
    · by_cases hk : key = k
      · rw [if_pos hk] at h
        subst h
        exact hf v (hl (key, v) (List.mem_cons_self _ _))
      · rw [if_neg hk] at h
        subst h
        exact hl (key, v) (List.mem_cons_self _ _)
    · exact ih (fun q hq => hl q (List.mem_cons_of_mem _ hq)) p h

theorem countEvictable_updateEntry_toggle (l : List (Nat × LRUKNode))
    (k : Nat) (node : LRUKNode) (flag : Bool)
    (hnd : (l.map Prod.fst).Nodup) (hl : lookupEntry l k = some node)
    (hne : node.is_evictable ≠ flag) :
    countEvictable (updateEntry l k (fun n => { n with is_evictable := flag }))
        + (if flag then 0 else 1)
      = countEvictable l + (if flag then 1 else 0) := by
  induction l with
  | nil => simp [lookupEntry] at hl
  | cons p rest ih =>
    obtain ⟨key, v⟩ := p
    simp only [List.map_cons, List.nodup_cons] at hnd
    rw [lookupEntry_cons] at hl
    rw [updateEntry_cons]
    by_cases h : key = k
    · rw [if_pos h] at hl ⊢
      have hv : v = node := by simpa using hl
      subst hv
      subst h
      rw [updateEntry_of_not_mem rest key _ hnd.1]
      rw [countEvictable_cons, countEvictable_cons]
      cases flag with
      | false =>
        have hvv : v.is_evictable = true := by
          cases hb : v.is_evictable with
          | false => exact absurd hb hne
          | true => rfl
        simp [hvv]
        omega
      | true =>
        have hvv : v.is_evictable = false := by
          cases hb : v.is_evictable with
          | false => rfl
          | true => exact absurd hb hne
        simp [hvv]
        omega
    · rw [if_neg h] at hl ⊢
      have := ih hnd.2 hl
      rw [countEvictable_cons, countEvictable_cons]
      omega

theorem storeWF_of_reach (nf k : Nat) (r : LRUKReplacer)
    (h : ReplacerReach nf k r) : StoreWF r := by
  induction h with
  | init =>
    refine ⟨rfl, ?_, ?_⟩ <;> simp [LRUKReplacer.mk_new, countEvictable]
  | record s s' fid hs heq ih =>
    obtain ⟨ihs, ihh, ihn⟩ := ih
    simp only [LRUKReplacer.record_access] at heq
    cases hc : lookupEntry s.node_store fid with
    | some v =>
      rw [hc] at heq
      simp only [Option.some.injEq] at heq
      subst heq
      refine ⟨?_, ?_, ?_⟩ <;> dsimp only
      · rw [ihs]
        refine (countEvictable_updateEntry_preserve s.node_store fid _ ?_).symm
        intro n
        rfl
      · intro p hp
        refine forall_mem_updateEntry (fun n => n.history ≠ []) s.node_store
          fid _ ihh ?_ p hp
        intro b hb
        dsimp only
        split
        · refine List.ne_nil_of_length_pos ?_
          have h2 : 1 ≤ b.history.length := List.length_pos.mpr hb
          rw [List.length_tail, List.length_append]
          simp only [List.length_singleton]
          omega
        · simp
      · simpa [updateEntry_keys] using ihn
    | none =>
      rw [hc] at heq
      by_cases hfull : s.current_size ≥ s.replacer_size
      · rw [if_pos hfull] at heq
        exact absurd heq (by simp)
      · rw [if_neg hfull] at heq
        simp only [Option.some.injEq] at heq
        subst heq
        refine ⟨?_, ?_, ?_⟩
        · simp only [countEvictable_append, countEvictable_cons]
          simp [LRUKNode.mk_new, countEvictable, ihs]
        · intro p hp
          rcases List.mem_append.mp hp with hp | hp
          · exact ihh p hp
          · rcases List.mem_singleton.mp hp with rfl
            simp [LRUKNode.mk_new]
        · have hnotin : fid ∉ s.node_store.map Prod.fst :=
            (lookupEntry_eq_none_iff _ _).mp hc
          simp [List.nodup_append, ihn, hnotin]
  | setEv s s' fid flag hs heq ih =>
    obtain ⟨ihs, ihh, ihn⟩ := ih
    simp only [LRUKReplacer.set_evictable] at heq
    cases hc : lookupEntry s.node_store fid with
    | none =>
      rw [hc] at heq
      exact absurd heq (by simp)
    | some node =>
      rw [hc] at heq
      dsimp only at heq
      by_cases hsame : node.is_evictable = flag
      · rw [if_pos hsame] at heq
        simp only [Option.some.injEq] at heq
        subst heq
        exact ⟨ihs, ihh, ihn⟩
      · rw [if_neg hsame] at heq
        simp only [Option.some.injEq] at heq
        subst heq
        have htog := countEvictable_updateEntry_toggle s.node_store fid node
          flag ihn hc hsame
        refine ⟨?_, ?_, ?_⟩ <;> dsimp only
        · cases flag with
          | false =>
            have hb : node.is_evictable = true := by
              cases hbb : node.is_evictable with
              | false => exact absurd hbb hsame
              | true => rfl
            have hile := countEvictable_pos_of_mem
              (mem_of_lookupEntry_eq_some hc) hb
            simp at htog ⊢
            omega
          | true =>
            simp at htog ⊢
            omega
        · intro p hp
          refine forall_mem_updateEntry (fun n => n.history ≠ []) s.node_store
            fid _ ihh ?_ p hp
          intro b hb
          exact hb
        · simpa [updateEntry_keys] using ihn

theorem getD_set_self {α : Type} (l : List α) (n : Nat) (a d : α)
    (h : n < l.length) : (l.set n a).getD n d = a := by
  induction l generalizing n with
  | nil => simp at h
  | cons x xs ih =>
    cases n with
    | zero => rfl
    | succ m =>
      simp only [List.set_cons_succ, List.getD_cons_succ]
      exact ih m (by simpa using h)

/-! The claims. -/

/-- Claim C10: `BufferPoolManager::new(pool_size, disk_manager, replacer_k)`
builds its replacer as `LRUKReplacer::new(replacer_k, LRUK_REPLACER_K)`: the
configured capacity is the caller's `replacer_k` argument (not the pool
size), and the look-back window K is the global constant 10 (never the
caller's `replacer_k`). -/
theorem C10_replacer_swapped_constructor_arguments
    (pool_size replacer_k : Nat) :
    (BufferPoolManager.mk_new pool_size replacer_k).replacer =
        LRUKReplacer.mk_new replacer_k LRUK_REPLACER_K ∧
    (BufferPoolManager.mk_new pool_size replacer_k).replacer.replacer_size =
        replacer_k ∧
    (BufferPoolManager.mk_new pool_size replacer_k).replacer.k = 10 :=
  ⟨rfl, rfl, rfl⟩

/-- Claim C6 (divergence): `record_access` does not panic on frame id 100
with configured capacity 5 (the claim says a frame id exceeding capacity is
fatal), yet it does panic on frame id 2 with capacity 2 (a frame id that
does not exceed capacity) merely because the store already holds
`replacer_size` evictable entries. -/
theorem C6_record_access_panic_condition :
    ((LRUKReplacer.mk_new 5 2).record_access 100).isSome = true ∧
    ((((LRUKReplacer.mk_new 2 2).record_access 0).bind
        (fun r => r.record_access 1)).bind
      (fun r => r.record_access 2)) = none := by
  decide

/-- Claim C7 (divergence): with K = 1, after a single `record_access(0)` the
replacer holds exactly one evictable frame (size 1), whose backward
k-distance is `Num 0`; `evict()` starts its maximum at `Num 0` and compares
strictly, so it returns `none` even though an evictable frame exists. -/
theorem C7_evict_skips_zero_distance_frame :
    ((LRUKReplacer.mk_new 2 1).record_access 0).map
        (fun r => (r.evict.1, countEvictable r.node_store, r.size)) =
      some (none, 1, 1) := by
  decide

/-- Claim C8: on every replacer state reachable by `record_access` /
`set_evictable` sequences, `size()` equals the number of tracked frames
marked evictable and every tracked frame has at least one recorded access;
`set_evictable` panics exactly on an untracked frame, is a no-op (returning
the state unchanged) when the flag is unchanged, and a toggle changes the
size by exactly one in the corresponding direction and is idempotent. -/
theorem C8_size_counts_evictable (nf k : Nat) (r : LRUKReplacer)
    (h : ReplacerReach nf k r) :
    (r.size = countEvictable r.node_store ∧
      ∀ p ∈ r.node_store, p.2.history ≠ []) ∧
    (∀ fid flag, (r.set_evictable fid flag = none ↔
      lookupEntry r.node_store fid = none)) ∧
    (∀ fid node, lookupEntry r.node_store fid = some node →
      r.set_evictable fid node.is_evictable = some r) ∧
    (∀ fid node r', lookupEntry r.node_store fid = some node →
      r.set_evictable fid (!node.is_evictable) = some r' →
      r'.set_evictable fid (!node.is_evictable) = some r' ∧
      (node.is_evictable = false → r'.size = r.size + 1) ∧
      (node.is_evictable = true → r'.size + 1 = r.size)) := by
  obtain ⟨hsz, hh, hnd⟩ := storeWF_of_reach nf k r h
  refine ⟨⟨hsz, hh⟩, ?_, ?_, ?_⟩
  · intro fid flag
    cases hc : lookupEntry r.node_store fid with
    | none => simp [LRUKReplacer.set_evictable, hc]
    | some node =>
      simp only [LRUKReplacer.set_evictable, hc]
      by_cases hsame : node.is_evictable = flag
      · simp [hsame]
      · simp [hsame]
  · intro fid node hc
    simp [LRUKReplacer.set_evictable, hc]
  · intro fid node r' hc hset
    simp only [LRUKReplacer.set_evictable, hc] at hset
    have hneq : ¬(node.is_evictable = !node.is_evictable) := by simp
    rw [if_neg hneq] at hset
    simp only [Option.some.injEq] at hset
    subst hset
    refine ⟨?_, ?_, ?_⟩
    · have hlook : lookupEntry (updateEntry r.node_store fid
          (fun n => { n with is_evictable := !node.is_evictable })) fid =
          some { node with is_evictable := !node.is_evictable } := by
        rw [lookupEntry_updateEntry_self, hc]
        rfl
      simp only [LRUKReplacer.set_evictable]
      rw [hlook]
      simp
    · intro hb
      simp [LRUKReplacer.size, hb]
    · intro hb
      have hile := countEvictable_pos_of_mem
        (mem_of_lookupEntry_eq_some hc) hb
      simp only [LRUKReplacer.size, hb] at *
      simp only [Bool.not_true, Bool.false_eq_true, if_false]
      omega

/-- Witness for C8: the size/count equality at the concrete reachable state
`replacerR0`, obtained from `LRUKReplacer::new(3, 2)` by `record_access(0)`. -/
theorem C8_size_counts_evictable_witness :
    replacerR0.size = countEvictable replacerR0.node_store :=
  ((C8_size_counts_evictable 3 2 replacerR0
    (ReplacerReach.record (LRUKReplacer.mk_new 3 2) replacerR0 0
      ReplacerReach.init (by decide))).1).1

/-- Claim C5 (counterexample): on an empty data file, reading page 1 (whose
byte offset 4096 lies strictly beyond the file length 0) panics — it does
not succeed with a zero-filled buffer as the claim states. -/
theorem C5_counterexample_read_past_eof :
    DiskManager.read_page ([] : List Nat) 1 = none ∧
    ¬ ∃ buf, DiskManager.read_page ([] : List Nat) 1 = some buf := by
  have h : DiskManager.read_page ([] : List Nat) 1 = none := by decide
  refine ⟨h, ?_⟩
  rintro ⟨buf, hbuf⟩
  rw [h] at hbuf
  exact Option.noConfusion hbuf

/-- Claim C5 (amended): when the page's start offset is at most the current
file length, `read_page` succeeds and zero-fills every requested byte that
lies past end-of-file; when the start offset strictly exceeds the file
length, `read_page` fails fatally instead of yielding zeros. -/
theorem C5_read_page_amended (file : List Nat) (page_id : Nat) :
    (page_id * BUSTUB_PAGE_SIZE ≤ file.length →
      ∃ buf, DiskManager.read_page file page_id = some buf ∧
        buf.length = BUSTUB_PAGE_SIZE ∧
        ∀ i, i < BUSTUB_PAGE_SIZE →
          buf.getD i 0 =
            if page_id * BUSTUB_PAGE_SIZE + i < file.length then
              file.getD (page_id * BUSTUB_PAGE_SIZE + i) 0
            else 0) ∧
    (file.length < page_id * BUSTUB_PAGE_SIZE →
      DiskManager.read_page file page_id = none) := by
  constructor
  · intro hle
    refine ⟨(List.range BUSTUB_PAGE_SIZE).map
      (fun i => file.getD (page_id * BUSTUB_PAGE_SIZE + i) 0), ?_, ?_, ?_⟩
    · simp only [DiskManager.read_page]
      rw [if_neg (by omega)]
    · simp
    · intro i hi
      have hlen : i < ((List.range BUSTUB_PAGE_SIZE).map
          (fun j => file.getD (page_id * BUSTUB_PAGE_SIZE + j) 0)).length := by
        simpa using hi
      rw [List.getD_eq_getElem _ _ hlen]
      rw [List.getElem_map]
      rw [List.getElem_range]
      by_cases hin : page_id * BUSTUB_PAGE_SIZE + i < file.length
      · rw [if_pos hin]
      · rw [if_neg hin]
        exact List.getD_eq_default _ _ (by omega)
  · intro hgt
    simp only [DiskManager.read_page]
    rw [if_pos (by omega)]

/-- Witness for the amended C5 on the concrete file `[5, 6, 7]` and page 0:
the offset 0 is within the file, so the read succeeds and zero-fills. -/
theorem C5_read_page_amended_witness :
    ∃ buf, DiskManager.read_page [5, 6, 7] 0 = some buf ∧
      buf.length = BUSTUB_PAGE_SIZE ∧
      ∀ i, i < BUSTUB_PAGE_SIZE →
        buf.getD i 0 =
          if 0 * BUSTUB_PAGE_SIZE + i < ([5, 6, 7] : List Nat).length then
            ([5, 6, 7] : List Nat).getD (0 * BUSTUB_PAGE_SIZE + i) 0
          else 0 :=
  (C5_read_page_amended [5, 6, 7] 0).1 (by decide)

/-- Claim C1 (divergence): starting from a fresh pool of size 1, after
`new_page()` (page 0, pinned), `unpin_page(0, false)` (pin 0, frame
evictable) and a resident `fetch_page(0)` (pin back to 1, but the resident
path never calls `set_evictable(…, false)`), frame 0 holds a page with pin
count 1 and is still chosen as the eviction victim by `evict()`; the next
`new_page()` succeeds by evicting the pinned frame. -/
theorem C1_pinned_frame_chosen_as_victim :
    (poolS.new_page).map (fun x => x.1.map Page.page_id) =
        some (some (some 0)) ∧
    (poolM1.unpin_page 0 false).map Prod.fst = some true ∧
    (poolM2.fetch_page 0).map (fun x => x.1.map Page.pin_count) =
        some (some 1) ∧
    (poolM3.pages.getD 0 Page.mk_new).pin_count = 1 ∧
    poolM3.replacer.evict.1 = some 0 ∧
    (poolM3.new_page).map (fun x => x.1.map Page.page_id) =
        some (some (some 1)) := by
  decide

/-- Claim C2 (divergence): on a resident dirty page, `flush_page` returns
true, performs exactly one disk Write of page 0, leaves the pin count
unchanged — but the dirty flag is still set afterwards, not cleared. -/
theorem C2_flush_page_leaves_dirty_flag :
    (poolM1.unpin_page 0 true).map Prod.fst = some true ∧
    (poolD2.pages.getD 0 Page.mk_new).is_dirty = true ∧
    (poolD2.flush_page 0).map Prod.fst = some true ∧
    (poolD2.flush_page 0).map (fun x => x.2.writes.map Prod.fst) = some [0] ∧
    (poolD2.flush_page 0).map
        (fun x => (x.2.pages.getD 0 Page.mk_new).is_dirty) = some true ∧
    (poolD2.flush_page 0).map
        (fun x => (x.2.pages.getD 0 Page.mk_new).pin_count) = some 0 := by
  decide

/-- Claim C3 (counterexample): `poolC3` holds page 0 resident, dirty, with
pin count 1; `unpin_page(0, false)` returns true and leaves the page with
dirty flag false — `Page::set_dirty` assigns the flag, so the claimed
OR-semantics (a dirty page stays dirty) fails. -/
theorem C3_counterexample_unpin_false_clears_dirty :
    (poolD2.fetch_page 0).map (fun x => x.1.map Page.is_dirty) =
        some (some true) ∧
    (poolC3.unpin_page 0 false).map Prod.fst = some true ∧
    (poolC3.unpin_page 0 false).map
        (fun x => (x.2.pages.getD 0 Page.mk_new).is_dirty) = some false := by
  decide

/-- Claim C3 (amended): for a resident page with positive pin count (frame
index in range and frame tracked by the replacer, as in every reachable
state), `unpin_page(p, d)` returns true, sets the dirty flag to `d`
(overwriting the previous value), decrements the pin count, and marks the
frame evictable in the replacer exactly when the count reaches zero; on a
non-resident page or one with pin count already ≤ 0 it returns false and
changes nothing. -/
theorem C3_unpin_page_amended (m : BufferPoolManager) (page_id : Nat)
    (d : Bool) :
    (lookupEntry m.page_table page_id = none →
      m.unpin_page page_id d = some (false, m)) ∧
    (∀ fid, lookupEntry m.page_table page_id = some fid →
      (m.pages.getD fid Page.mk_new).pin_count ≤ 0 →
      m.unpin_page page_id d = some (false, m)) ∧
    (∀ fid node, lookupEntry m.page_table page_id = some fid →
      fid < m.pages.length →
      0 < (m.pages.getD fid Page.mk_new).pin_count →
      lookupEntry m.replacer.node_store fid = some node →
      ∃ res, m.unpin_page page_id d = some (true, res) ∧
        (res.pages.getD fid Page.mk_new).is_dirty = d ∧
        (res.pages.getD fid Page.mk_new).pin_count =
          (m.pages.getD fid Page.mk_new).pin_count - 1 ∧
        ((m.pages.getD fid Page.mk_new).pin_count = 1 →
          ∃ node', lookupEntry res.replacer.node_store fid = some node' ∧
            node'.is_evictable = true) ∧
        ((m.pages.getD fid Page.mk_new).pin_count ≠ 1 →
          res.replacer = m.replacer)) := by
  refine ⟨?_, ?_, ?_⟩
  · intro h
    simp [BufferPoolManager.unpin_page, h]
  · intro fid hc hle
    simp only [BufferPoolManager.unpin_page, hc]
    rw [if_pos hle]
  · intro fid node hc hlt hpin hrep
    simp only [BufferPoolManager.unpin_page, hc]
    rw [if_neg (by omega)]
    simp only [Page.set_dirty, Page.unpin]
    by_cases hone : (m.pages.getD fid Page.mk_new).pin_count = 1
    · rw [if_pos (show (m.pages.getD fid Page.mk_new).pin_count - 1 = 0 by
        rw [hone]
        rfl)]
      simp only [LRUKReplacer.set_evictable, hrep]
      by_cases hev : node.is_evictable = true
      · rw [if_pos hev]
        refine ⟨_, rfl, ?_, ?_, ?_, ?_⟩
        · rw [getD_set_self _ _ _ _ hlt]
        · rw [getD_set_self _ _ _ _ hlt]
        · intro _
          exact ⟨node, hrep, hev⟩
        · intro hne
          exact absurd hone hne
      · rw [if_neg hev]
        refine ⟨_, rfl, ?_, ?_, ?_, ?_⟩
        · rw [getD_set_self _ _ _ _ hlt]
        · rw [getD_set_self _ _ _ _ hlt]
        · intro _
          refine ⟨{ node with is_evictable := true }, ?_, rfl⟩
          dsimp only
          rw [lookupEntry_updateEntry_self, hrep]
          rfl
        · intro hne
          exact absurd hone hne
    · rw [if_neg (show ¬((m.pages.getD fid Page.mk_new).pin_count - 1 = 0) by
        omega)]
      refine ⟨_, rfl, ?_, ?_, ?_, ?_⟩
      · rw [getD_set_self _ _ _ _ hlt]
      · rw [getD_set_self _ _ _ _ hlt]
      · intro h1
        exact absurd h1 hone
      · intro _
        rfl

/-- Witness for the amended C3 at the concrete reachable state `poolC3`
(page 0 resident, dirty, pin count 1, frame 0 tracked by the replacer). -/
theorem C3_unpin_page_amended_witness :
    ∃ res, poolC3.unpin_page 0 false = some (true, res) ∧
      (res.pages.getD 0 Page.mk_new).is_dirty = false ∧
      (res.pages.getD 0 Page.mk_new).pin_count =
        (poolC3.pages.getD 0 Page.mk_new).pin_count - 1 ∧
      ((poolC3.pages.getD 0 Page.mk_new).pin_count = 1 →
        ∃ node', lookupEntry res.replacer.node_store 0 = some node' ∧
          node'.is_evictable = true) ∧
      ((poolC3.pages.getD 0 Page.mk_new).pin_count ≠ 1 →
        res.replacer = poolC3.replacer) :=
  (C3_unpin_page_amended poolC3 0 false).2.2 0
    { history := [0, 1], k := 10, frame_id := 0, is_evictable := true }
    (by decide) (by decide) (by decide) (by decide)

/-- Claim C4 (divergence): `poolW2` was built by `new_page()`, a caller
write of `testData` through the shared handle, and `unpin_page(0, true)`;
the next `new_page()` evicts this dirty victim (one disk Write of page 0
happens), and the page it returns — freshly assigned id 1 — still carries
the dirty flag and the old nonzero data: `new_page` never resets the chosen
frame's page. -/
theorem C4_new_page_skips_reset :
    (poolW2.pages.getD 0 Page.mk_new).is_dirty = true ∧
    (poolW2.new_page).map (fun x => x.2.writes.map Prod.fst) = some [0] ∧
    (poolW2.new_page).map (fun x => x.1.map Page.page_id) =
        some (some (some 1)) ∧
    (poolW2.new_page).map (fun x => x.1.map Page.is_dirty) =
        some (some true) ∧
    (poolW2.new_page).map (fun x => x.1.map (fun p => p.data.headD 0)) =
        some (some 7) := by
  decide

/-- Claim C9: `delete_page` returns true with no state change on a
non-resident page; returns false with no state change on a resident page
with positive pin count; and on a resident page with pin count 0 (whose
frame is tracked evictable, as in every reachable state) returns true,
removes the page-table entry (so a subsequent `fetch_page` misses), drops
the frame from the replacer, pushes the frame onto the free list, and
resets the page. -/
theorem C9_delete_page_cases (m : BufferPoolManager) (page_id : Nat) :
    (lookupEntry m.page_table page_id = none →
      m.delete_page page_id = some (true, m)) ∧
    (∀ fid, lookupEntry m.page_table page_id = some fid →
      0 < (m.pages.getD fid Page.mk_new).pin_count →
      m.delete_page page_id = some (false, m)) ∧
    (∀ fid node, lookupEntry m.page_table page_id = some fid →
      (m.pages.getD fid Page.mk_new).pin_count = 0 →
      lookupEntry m.replacer.node_store fid = some node →
      node.is_evictable = true →
      fid < m.pages.length →
      ∃ res, m.delete_page page_id = some (true, res) ∧
        lookupEntry res.page_table page_id = none ∧
        lookupEntry res.replacer.node_store fid = none ∧
        res.free_list = fid :: m.free_list ∧
        res.pages.getD fid Page.mk_new = Page.mk_new) := by
  refine ⟨?_, ?_, ?_⟩
  · intro h
    simp [BufferPoolManager.delete_page, h]
  · intro fid hc hpin
    simp only [BufferPoolManager.delete_page, hc]
    rw [if_pos hpin]
  · intro fid node hc hpin hrep hev hlt
    simp only [BufferPoolManager.delete_page, hc]
    rw [if_neg (by omega)]
    simp only [LRUKReplacer.remove, hrep]
    rw [if_pos hev]
    refine ⟨_, rfl, ?_, ?_, rfl, ?_⟩
    · exact lookupEntry_removeEntry_self _ _
    · exact lookupEntry_removeEntry_self _ _
    · rw [getD_set_self _ _ _ _ hlt]
      rfl

/-- Witness for C9 at the concrete reachable state `poolM2` (page 0
resident, clean, pin count 0, frame 0 tracked evictable). -/
theorem C9_delete_page_cases_witness :
    ∃ res, poolM2.delete_page 0 = some (true, res) ∧
      lookupEntry res.page_table 0 = none ∧
      lookupEntry res.replacer.node_store 0 = none ∧
      res.free_list = 0 :: poolM2.free_list ∧
      res.pages.getD 0 Page.mk_new = Page.mk_new :=
  (C9_delete_page_cases poolM2 0).2.2 0
    { history := [0], k := 10, frame_id := 0, is_evictable := true }
    (by decide) (by decide) (by decide) (by decide) (by decide)

end BusTub
